import Mathlib

/-!
Shallow embedding of `src/scribe_data/load/data_to_sqlite.py`.

The script converts per-language JSON word-category files into one SQLite
database per language.  We embed:

* the SQL text produced by `create_table` and the schema it denotes
  (column list and UNIQUE-constraint column list, as SQLite parses them);
* `table_insert` (`INSERT OR IGNORE`) as a function on tables-as-row-lists;
* the per-category row mappers (nouns with the "Scribe" seeding rule,
  verbs with column inference from the first entry, prepositions,
  translations, autosuggestions and emoji keywords with padding);
* the `autocomplete_lexicon` SQL query (full-lexicon union, LEFT JOINs
  against the nouns table, the CASE casing resolution, and the WHERE
  token filter);
* the orchestrator: argument validation, per-language skip/build, and
  the effect trace of file removals and creations.

SQLite's `UPPER`/`LOWER` only fold the 26 ASCII letters; we model them
with an explicit case-mapping table.  Strings are Lean `String`s,
character-counted lengths (`LENGTH` on SQLite text) are `String.length`.
-/

/-- One database row: a list of text values. -/
abbrev Row := List String

/-- The 26 ASCII lower/upper letter pairs.  SQLite's `UPPER` and `LOWER`
fold exactly these characters and leave all others unchanged. -/
def upperPairs : List (Char × Char) :=
  [('a', 'A'), ('b', 'B'), ('c', 'C'), ('d', 'D'), ('e', 'E'), ('f', 'F'),
   ('g', 'G'), ('h', 'H'), ('i', 'I'), ('j', 'J'), ('k', 'K'), ('l', 'L'),
   ('m', 'M'), ('n', 'N'), ('o', 'O'), ('p', 'P'), ('q', 'Q'), ('r', 'R'),
   ('s', 'S'), ('t', 'T'), ('u', 'U'), ('v', 'V'), ('w', 'W'), ('x', 'X'),
   ('y', 'Y'), ('z', 'Z')]

/-- ASCII-only upper-casing of one character (SQLite `UPPER` semantics). -/
def asciiUpperChar (c : Char) : Char :=
  ((upperPairs.find? (fun p => p.1 == c)).map (fun p => p.2)).getD c

/-- ASCII-only lower-casing of one character (SQLite `LOWER` semantics). -/
def asciiLowerChar (c : Char) : Char :=
  ((upperPairs.find? (fun p => p.2 == c)).map (fun p => p.1)).getD c

/-- SQLite `UPPER` on a text value. -/
def asciiUpper (s : String) : String := String.mk (s.data.map asciiUpperChar)

/-- SQLite `LOWER` on a text value. -/
def asciiLower (s : String) : String := String.mk (s.data.map asciiLowerChar)

/-- Upper-case the first character of a character list, keep the rest. -/
def upperFirstChars : List Char → List Char
  | [] => []
  | c :: cs => asciiUpperChar c :: cs

/-- `UPPER(SUBSTR(w, 1, 1)) || SUBSTR(w, 2)`: the query's expression that
capitalizes only the first character of a candidate. -/
def capFirst (s : String) : String := String.mk (upperFirstChars s.data)

/-- The SQL text built by `create_table(word_type, cols)`:
`f"CREATE TABLE IF NOT EXISTS {word_type} ({' Text, '.join(cols)} Text, UNIQUE({cols[0]}))"`. -/
def create_table_sql (word_type : String) (cols : List String) : String :=
  "CREATE TABLE IF NOT EXISTS " ++ word_type ++ " (" ++
    String.intercalate " Text, " cols ++ " Text, UNIQUE(" ++ cols.headD "" ++ "))"

/-- Split a character list on a separator character. -/
def splitOnChar (sep : Char) (l : List Char) : List (List Char) :=
  l.foldr (fun c acc =>
    match acc with
    | [] => [[c]]
    | g :: gs => if c == sep then [] :: (g :: gs) else (c :: g) :: gs) [[]]

/-- Items of a comma-separated SQL list, leading whitespace stripped. -/
def sqlItems (l : List Char) : List (List Char) :=
  (splitOnChar ',' l).map (List.dropWhile (fun c => c == ' '))

/-- The column names of the table the generated SQL creates: SQLite splits
the parenthesised definition list on commas and reads each item's first
word as the column name. -/
def tableColsOf (cols : List String) : List String :=
  (sqlItems (String.intercalate " Text, " cols ++ " Text").data).map
    (fun item => String.mk (item.takeWhile (fun c => c ≠ ' ')))

/-- The column names covered by the generated `UNIQUE(...)` constraint:
the interpolated text is `cols[0]`, which SQLite splits on commas. -/
def uniqueColsOf (cols : List String) : List String :=
  (sqlItems (cols.headD "").data).map String.mk

/-- Positions (within the created table's columns) of the columns covered
by the UNIQUE constraint. -/
def uniqIdx (cols : List String) : List Nat :=
  (uniqueColsOf cols).map (fun c => (tableColsOf cols).findIdx (fun x => x == c))

/-- The tuple of a row's values at the UNIQUE-constraint positions. -/
def rowKey (uniq : List Nat) (r : Row) : List String := uniq.map (fun i => r.getD i "")

/-- `table_insert`: `INSERT OR IGNORE` into a table whose UNIQUE constraint
covers the positions `uniq`.  A row conflicting with an existing row on
the whole constrained tuple is silently dropped; otherwise it is appended. -/
def table_insert (uniq : List Nat) (tbl : List Row) (r : Row) : List Row :=
  if tbl.any (fun r0 => rowKey uniq r0 == rowKey uniq r) then tbl else tbl ++ [r]

/-- Contents of a table after inserting a stream of rows in order. -/
def loadTable (uniq : List Nat) (rows : List Row) : List Row :=
  rows.foldl (table_insert uniq) []

/-- `cols` as the nouns branch passes it: a single comma-joined string. -/
def nounsCols : List String := ["noun, plural, form"]

/-- The rows the nouns branch inserts, in order: one row per JSON entry
(headword, plural, form), then the `["Scribe", "Scribes", ""]` seed when
"Scribe" is not a key of the blob and the language is not Russian. -/
def nounsRowsStream (lang : String) (blob : List (String × String × String)) : List Row :=
  blob.map (fun e => [e.1, e.2.1, e.2.2]) ++
    (if (blob.map (fun e => e.1)).contains "Scribe" = false ∧ lang ≠ "Russian"
     then [["Scribe", "Scribes", ""]] else [])

/-- `cols` as the prepositions branch passes it. -/
def prepositionsCols : List String := ["preposition, form"]

/-- Rows of the prepositions branch: (headword, form string). -/
def prepositionsRows (blob : List (String × String)) : List Row :=
  blob.map (fun e => [e.1, e.2])

/-- `cols` as the translations branch passes it. -/
def translationsCols : List String := ["word, translation"]

/-- Rows of the translations branch: (headword, translation string). -/
def translationsRows (blob : List (String × String)) : List Row :=
  blob.map (fun e => [e.1, e.2])

/-- `cols` of the autosuggestions branch: a proper four-element list. -/
def autosuggestionsCols : List String :=
  ["word", "suggestion_0", "suggestion_1", "suggestion_2"]

/-- Rows of the autosuggestions branch: headword, then every list element,
then empty-string padding up to the column count (`[""] * (len(cols) - len(keys))`,
which like Python's negative repeat adds nothing when already long enough). -/
def autosuggestionsRows (blob : List (String × List String)) : List Row :=
  blob.map (fun e =>
    ([e.1] ++ e.2) ++ List.replicate (autosuggestionsCols.length - (1 + e.2.length)) "")

/-- One object of an emoji-keywords JSON list; the branch reads its `emoji` field. -/
structure EmojiEntry where
  emoji : String
deriving DecidableEq

/-- `cols` of the emoji-keywords branch: a proper four-element list. -/
def emojiKeywordsCols : List String := ["word", "emoji_0", "emoji_1", "emoji_2"]

/-- Rows of the emoji-keywords branch: headword, the `emoji` field of each
list object, then empty-string padding up to the column count. -/
def emojiKeywordsRows (blob : List (String × List EmojiEntry)) : List Row :=
  blob.map (fun e =>
    ([e.1] ++ e.2.map (fun o => o.emoji)) ++
      List.replicate (emojiKeywordsCols.length - (1 + e.2.length)) "")

/-- C1: the claim says every category table gets a UNIQUE constraint on its
first column only, making a duplicate-headword insert a no-op.  The nouns
branch passes `cols = ["noun, plural, form"]` — one comma-joined string — so
the generated SQL is `UNIQUE(noun, plural, form)`: a composite constraint
over all three columns.  Inserting a second row with the same headword but
a different plural therefore succeeds, leaving two rows that share their
first-column value; under the claimed `UNIQUE` on position 0 alone the
second insert would have been dropped. -/
theorem claim_C1_unique_constraint :
    create_table_sql "nouns" nounsCols =
      "CREATE TABLE IF NOT EXISTS nouns (noun, plural, form Text, UNIQUE(noun, plural, form))" ∧
    uniqueColsOf nounsCols = ["noun", "plural", "form"] ∧
    uniqIdx nounsCols = [0, 1, 2] ∧
    loadTable (uniqIdx nounsCols) [["chat", "chats", ""], ["chat", "cats", ""]] =
      [["chat", "chats", ""], ["chat", "cats", ""]] ∧
    loadTable [0] [["chat", "chats", ""], ["chat", "cats", ""]] =
      [["chat", "chats", ""]] := by
  refine ⟨rfl, by decide, by decide, by decide, by decide⟩

/-- `json_data[row][col]` as an association-list lookup: `none` models a
Python `KeyError`. -/
def lookupKey (m : List (String × String)) (k : String) : Option String :=
  (m.find? (fun p => p.1 == k)).map (fun p => p.2)

/-- Map a fallible function over a list, failing at the first `none`
(the evaluation order of a Python list comprehension that may raise). -/
def optMap {α β : Type} (f : α → Option β) : List α → Option (List β)
  | [] => some []
  | a :: rest =>
    match f a, optMap f rest with
    | some b, some bs => some (b :: bs)
    | _, _ => none

/-- The verbs branch's column inference:
`cols = ["verb"] + json_data[list(json_data.keys())[0]].keys()`.
An empty blob raises `IndexError` at `[0]` before any table is created. -/
def verbsColsOf (blob : List (String × List (String × String))) : Except String (List String) :=
  match blob with
  | [] => Except.error "IndexError: list index out of range"
  | e :: _ => Except.ok ("verb" :: e.2.map (fun p => p.1))

/-- One verb row: the headword followed by the value of every inferred slot
column, failing (`KeyError`) when the entry lacks one of those keys. -/
def verbRowOf (cols : List String) (e : String × List (String × String)) : Option Row :=
  (optMap (fun c => lookupKey e.2 c) (cols.drop 1)).map (fun vs => e.1 :: vs)

/-- A loaded per-category JSON blob, tagged by its word type (the shapes of
§the six `elif wt == ...` branches). -/
inductive CatBlob
  | nouns (b : List (String × String × String))
  | verbs (b : List (String × List (String × String)))
  | prepositions (b : List (String × String))
  | translations (b : List (String × String))
  | autosuggestions (b : List (String × List String))
  | emoji_keywords (b : List (String × List EmojiEntry))

/-- Outcome of processing one category: either the table name, the Python
`cols` value and the insert stream, or a failure raised before the
`CREATE TABLE` (no table exists), or a failure raised while mapping rows
(the table was created, but its uncommitted inserts are rolled back). -/
inductive CatOutcome
  | ok (name : String) (cols : List String) (stream : List Row)
  | failBeforeCreate (msg : String)
  | failAfterCreate (name : String) (cols : List String) (msg : String)

/-- Processing of one `elif wt == ...` branch for one category blob. -/
def processCat (lang : String) : CatBlob → CatOutcome
  | CatBlob.nouns b => CatOutcome.ok "nouns" nounsCols (nounsRowsStream lang b)
  | CatBlob.verbs b =>
    match verbsColsOf b with
    | Except.error m => CatOutcome.failBeforeCreate m
    | Except.ok cols =>
      match optMap (verbRowOf cols) b with
      | some rows => CatOutcome.ok "verbs" cols rows
      | none => CatOutcome.failAfterCreate "verbs" cols "KeyError"
  | CatBlob.prepositions b => CatOutcome.ok "prepositions" prepositionsCols (prepositionsRows b)
  | CatBlob.translations b => CatOutcome.ok "translations" translationsCols (translationsRows b)
  | CatBlob.autosuggestions b =>
    CatOutcome.ok "autosuggestions" autosuggestionsCols (autosuggestionsRows b)
  | CatBlob.emoji_keywords b =>
    CatOutcome.ok "emoji_keywords" emojiKeywordsCols (emojiKeywordsRows b)

/-- Sequentially process a language's categories, committing each loaded
table; the first raised error stops the loop, keeping the tables already
committed (a mapping failure after `CREATE TABLE` leaves that table empty). -/
def buildTablesAux (lang : String) (acc : List (String × List Row)) :
    List CatBlob → List (String × List Row) × Option String
  | [] => (acc, none)
  | cb :: rest =>
    match processCat lang cb with
    | CatOutcome.ok n cols rows => buildTablesAux lang (acc ++ [(n, loadTable (uniqIdx cols) rows)]) rest
    | CatOutcome.failBeforeCreate m => (acc, some m)
    | CatOutcome.failAfterCreate n _ m => (acc ++ [(n, [])], some m)

/-- Look a table up by name in a built database. -/
def lookupTable (tbls : List (String × List Row)) (n : String) : Option (List Row) :=
  (tbls.find? (fun p => p.1 == n)).map (fun p => p.2)

/-- First column of a row (the `noun` / `preposition` / `word` value). -/
def firstCol (r : Row) : String := r.headD ""

/-- The `full_lexicon` CTE: the union (deduplicated, as SQL `UNION`) of
noun tokens of length > 2, preposition tokens of length > 2, lower-cased
autosuggestion tokens whose token has length > 2, and all emoji-keyword
tokens. -/
def fullLexicon (ns ps asug es : List Row) : List String :=
  (((ns.map firstCol).filter (fun w => 2 < w.length)) ++
   ((ps.map firstCol).filter (fun w => 2 < w.length)) ++
   ((((asug.map firstCol).filter (fun w => 2 < w.length)).map asciiLower).dedup) ++
   (es.map firstCol)).dedup

/-- Rows of a `LEFT JOIN nouns ON <key> = nouns.noun` for one candidate:
the matched first-column values, or a single SQL NULL when nothing matches. -/
def joinMatches (ns : List Row) (key : String) : List (Option String) :=
  match (ns.filter (fun r => firstCol r == key)).map (fun r => some (firstCol r)) with
  | [] => [none]
  | ms => ms

/-- SQL `=` against a possibly-NULL joined value: NULL compares false. -/
def optEq (a : String) (b : Option String) : Bool :=
  match b with
  | some x => a == x
  | none => false

/-- The query's CASE expression for one joined row: prefer the
capitalize-first noun match, then the upper-case noun match, else keep the
candidate. -/
def sqlCase (w : String) (capN upN : Option String) : String :=
  if optEq (capFirst w) capN then capN.getD ""
  else if optEq (asciiUpper w) upN then upN.getD ""
  else w

/-- All CASE values produced for one candidate across the cross product of
its two LEFT JOINs. -/
def resolvedVals (ns : List Row) (w : String) : List String :=
  (joinMatches ns (capFirst w)).flatMap (fun a =>
    (joinMatches ns (asciiUpper w)).map (fun b => sqlCase w a b))

/-- Casing resolution as the specification describes it: capitalize-first
match wins, else whole-word upper-case match, else the candidate itself. -/
def resolveCasingSpec (ns : List Row) (w : String) : String :=
  if (ns.map firstCol).contains (capFirst w) then capFirst w
  else if (ns.map firstCol).contains (asciiUpper w) then asciiUpper w
  else w

/-- The characters the final WHERE clause rejects: hyphen, slash, both
parentheses, straight double quote, the three curly double quotes of the
query, and the straight single quote (codepoint 39). -/
def badChars : List Char :=
  ['-', '/', '(', ')', '"', Char.ofNat 8220, Char.ofNat 8222, Char.ofNat 8221,
   Char.ofNat 39]

/-- Whether a character list contains a given character. -/
def containsChar (l : List Char) (c : Char) : Bool := l.any (fun x => x == c)

/-- The WHERE filter on a candidate's characters: length above 1 and none
of the rejected characters (`LENGTH(lex.word) > 1 AND ... NOT LIKE ...`). -/
def goodWordChars (l : List Char) : Bool :=
  decide (1 < l.length) && badChars.all (fun c => !containsChar l c)

/-- The WHERE filter on a token. -/
def goodWord (w : String) : Bool := goodWordChars w.data

/-- The full `INSERT INTO autocomplete_lexicon` SELECT: candidates of the
full lexicon, filtered on the candidate token, resolved through the CASE
expression over both LEFT JOINs, deduplicated by SELECT DISTINCT. -/
def lexiconSelect (ns ps asug es : List Row) : List String :=
  (((fullLexicon ns ps asug es).filter goodWord).flatMap (resolvedVals ns)).dedup

/-- The lexicon query against a database that may lack source tables: SQLite
refuses to prepare a statement referencing a table that does not exist
("no such table"), so all four sources must be present. -/
def lexiconQuery (ns ps asug es : Option (List Row)) : Except String (List String) :=
  match ns, ps, asug, es with
  | some n, some p, some a, some e => Except.ok (lexiconSelect n p a e)
  | _, _, _, _ => Except.error "no such table"

/-- Build one language's database: process every available category in
order, then create the `autocomplete_lexicon` table and run the merge
query.  A query failure leaves the created lexicon table empty and raises;
a category failure skips the merge entirely. -/
def buildLanguageDB (lang : String) (cats : List CatBlob) :
    List (String × List Row) × Option String :=
  match buildTablesAux lang [] cats with
  | (tbls, some m) => (tbls, some m)
  | (tbls, none) =>
    match lexiconQuery (lookupTable tbls "nouns") (lookupTable tbls "prepositions")
        (lookupTable tbls "autosuggestions") (lookupTable tbls "emoji_keywords") with
    | Except.ok ws => (tbls ++ [("autocomplete_lexicon", ws.map (fun w => [w]))], none)
    | Except.error m => (tbls ++ [("autocomplete_lexicon", [])], some m)

/-- Shape of the value `ast.literal_eval` returned for the command-line
argument: a list of strings, a list holding some non-string element, or a
literal that is not a list at all. -/
inductive PyValue
  | strList (xs : List String)
  | otherList
  | nonList

/-- Outcome of `ast.literal_eval` on the raw argument text.  The script
catches `ValueError` and re-raises it; a `SyntaxError` propagates as-is —
either way the run dies during validation. -/
inductive LiteralParse
  | ok (v : PyValue)
  | valueError
  | syntaxError

/-- Lines 41-69: validate the optional language-subset argument against the
known language list.  `none` models `len(sys.argv) != 2` (no subset).
Returns the selected subset, or the raised error. -/
def validateArg (cur : List String) : Option LiteralParse → Except String (Option (List String))
  | none => Except.ok none
  | some LiteralParse.valueError => Except.error "ValueError: invalid argument type"
  | some LiteralParse.syntaxError => Except.error "SyntaxError: malformed literal"
  | some (LiteralParse.ok (PyValue.strList xs)) =>
    if xs.all (fun x => cur.contains x) then Except.ok (some xs)
    else Except.error "ValueError: invalid language argument"
  | some (LiteralParse.ok PyValue.otherList) =>
    Except.error "ValueError: invalid language argument"
  | some (LiteralParse.ok PyValue.nonList) => Except.error "ValueError: not a list"

/-- Observable file-system actions of a run, in order. -/
inductive Effect
  | removeFile (path : String)
  | createFile (path : String)
  | skipNotice (lang : String)
deriving DecidableEq

/-- External collaborators and ambient state of one run: the known language
list from `total_data.json`, the ISO-code lookup, which database files
already exist, and each language's discovered category files with their
loaded JSON blobs (in `os.listdir` order). -/
structure Config where
  current_languages : List String
  iso : String → String
  dbExists : String → Bool
  langData : String → List CatBlob

/-- `f"databases/{get_language_iso(lang).upper()}LanguageData.sqlite"`. -/
def dbPath (cfg : Config) (lang : String) : String :=
  "databases/" ++ asciiUpper (cfg.iso lang) ++ "LanguageData.sqlite"

/-- File effects of entering a language's build: remove an existing
database file, then create the new one. -/
def langEffects (cfg : Config) (lang : String) : List Effect :=
  (if cfg.dbExists (dbPath cfg lang) then [Effect.removeFile (dbPath cfg lang)] else []) ++
    [Effect.createFile (dbPath cfg lang)]

/-- One iteration of the per-language loop: a language with no discovered
category files only reports a skip; otherwise the database file is
(re)created and the language is built. -/
def processLang (cfg : Config) (lang : String) : List Effect × Option String :=
  if (cfg.langData lang).isEmpty then ([Effect.skipNotice lang], none)
  else (langEffects cfg lang, (buildLanguageDB lang (cfg.langData lang)).2)

/-- The per-language loop over the selected languages: effects accumulate
in order and the first raised error terminates the run. -/
def runLangs (cfg : Config) : List String → List Effect × Option String
  | [] => ([], none)
  | l :: ls =>
    match processLang cfg l with
    | (effs, some m) => (effs, some m)
    | (effs, none) =>
      match runLangs cfg ls with
      | (effs2, r) => (effs ++ effs2, r)

/-- The whole run: argument validation happens before the loop and before
any file is touched; a validation error produces no effects at all. -/
def runAll (cfg : Config) (arg : Option LiteralParse) : List Effect × Option String :=
  match validateArg cfg.current_languages arg with
  | Except.error m => ([], some m)
  | Except.ok sel => runLangs cfg (sel.getD cfg.current_languages)

theorem table_insert_fresh (uniq : List Nat) (tbl : List Row) (r : Row)
    (h : ∀ r0 ∈ tbl, rowKey uniq r0 ≠ rowKey uniq r) :
    table_insert uniq tbl r = tbl ++ [r] := by
  unfold table_insert
  rw [if_neg]
  simp only [List.any_eq_true, beq_iff_eq, not_exists, not_and]
  exact h

theorem foldl_table_insert_of_fresh (uniq : List Nat) (rows : List Row) :
    ∀ acc : List Row,
      (∀ r ∈ rows, ∀ r0 ∈ acc, rowKey uniq r0 ≠ rowKey uniq r) →
      rows.Pairwise (fun a b => rowKey uniq a ≠ rowKey uniq b) →
      rows.foldl (table_insert uniq) acc = acc ++ rows := by
  induction rows with
  | nil => intro acc _ _; simp
  | cons r rest ih =>
    intro acc h hp
    rw [List.foldl_cons, table_insert_fresh uniq acc r (h r (List.mem_cons_self r rest))]
    rw [ih (acc ++ [r]) ?_ hp.of_cons]
    · simp
    · intro r2 hr2 r0 hr0
      rcases List.mem_append.1 hr0 with h0 | h0
      · exact h r2 (List.mem_cons_of_mem r hr2) r0 h0
      · rw [List.mem_singleton.1 h0]
        exact List.rel_of_pairwise_cons hp hr2

theorem loadTable_of_pairwise (uniq : List Nat) (rows : List Row)
    (hp : rows.Pairwise (fun a b => rowKey uniq a ≠ rowKey uniq b)) :
    loadTable uniq rows = rows := by
  have h := foldl_table_insert_of_fresh uniq rows [] (by simp) hp
  simpa [loadTable] using h


/-- C6: the "Scribe"/"Scribes" seeding rule.  For a nouns blob whose
headwords are pairwise distinct (keys of a JSON object) and do not include
"Scribe": every language other than Russian gets the seeded row
`["Scribe", "Scribes", ""]` in its loaded nouns table, while for Russian
no row with headword "Scribe" exists at all (the seeding is skipped). -/
theorem claim_C6_scribe_seeding (lang : String) (blob : List (String × String × String))
    (hdist : (blob.map (fun e => e.1)).Nodup)
    (hs : (blob.map (fun e => e.1)).contains "Scribe" = false) :
    (lang ≠ "Russian" →
      ["Scribe", "Scribes", ""] ∈ loadTable (uniqIdx nounsCols) (nounsRowsStream lang blob)) ∧
    (∀ r ∈ loadTable (uniqIdx nounsCols) (nounsRowsStream "Russian" blob),
      firstCol r ≠ "Scribe") := by
  have hui : uniqIdx nounsCols = [0, 1, 2] := by decide
  have hnotmem : "Scribe" ∉ blob.map (fun e => e.1) := by simpa using hs
  have hpmap : (blob.map (fun e => ([e.1, e.2.1, e.2.2] : Row))).Pairwise
      (fun a b => rowKey [0, 1, 2] a ≠ rowKey [0, 1, 2] b) := by
    rw [List.pairwise_map]
    have hdist2 : (blob.map (fun e => e.1)).Pairwise (fun a b => a ≠ b) := hdist
    have hd : blob.Pairwise (fun a b => a.1 ≠ b.1) := List.pairwise_map.1 hdist2
    refine hd.imp ?_
    intro a b hab heq
    simp only [rowKey, List.map, List.getD] at heq
    exact hab (by injection heq)
  constructor
  · intro hlang
    have hstream : nounsRowsStream lang blob =
        blob.map (fun e => [e.1, e.2.1, e.2.2]) ++ [["Scribe", "Scribes", ""]] := by
      simp [nounsRowsStream, if_pos (And.intro hs hlang)]
    have hpair : (nounsRowsStream lang blob).Pairwise
        (fun a b => rowKey (uniqIdx nounsCols) a ≠ rowKey (uniqIdx nounsCols) b) := by
      rw [hstream, hui, List.pairwise_append]
      refine ⟨hpmap, List.pairwise_singleton _ _, ?_⟩
      intro a ha b hb
      rw [List.mem_singleton.1 hb]
      rcases List.mem_map.1 ha with ⟨e, he, rfl⟩
      intro heq
      simp only [rowKey, List.map, List.getD] at heq
      exact hnotmem (List.mem_map.2 ⟨e, he, by injection heq⟩)
    rw [loadTable_of_pairwise _ _ hpair, hstream]
    exact List.mem_append_right _ (List.mem_singleton.2 rfl)
  · have hstream : nounsRowsStream "Russian" blob =
        blob.map (fun e => [e.1, e.2.1, e.2.2]) := by
      simp [nounsRowsStream]
    have hpair : (nounsRowsStream "Russian" blob).Pairwise
        (fun a b => rowKey (uniqIdx nounsCols) a ≠ rowKey (uniqIdx nounsCols) b) := by
      rw [hstream, hui]; exact hpmap
    rw [loadTable_of_pairwise _ _ hpair, hstream]
    intro r hr
    rcases List.mem_map.1 hr with ⟨e, he, rfl⟩
    intro heq
    exact hnotmem (List.mem_map.2 ⟨e, he, heq⟩)

/-- Witness for C6 at a concrete blob: French gets the seeded Scribe row. -/
theorem claim_C6_scribe_seeding_witness :
    ["Scribe", "Scribes", ""] ∈
      loadTable (uniqIdx nounsCols) (nounsRowsStream "French" [("chat", "chats", "")]) :=
  (claim_C6_scribe_seeding "French" [("chat", "chats", "")] (by decide) (by decide)).1
    (by decide)

theorem asciiUpperChar_eq_iff (x c : Char)
    (hc : ∀ p ∈ upperPairs, p.1 ≠ c ∧ p.2 ≠ c) :
    asciiUpperChar x = c ↔ x = c := by
  unfold asciiUpperChar
  cases hfind : upperPairs.find? (fun p => p.1 == x) with
  | none => simp
  | some pr =>
    have hmem := List.mem_of_find?_eq_some hfind
    have hpx : pr.1 = x := by simpa using List.find?_some hfind
    simp only [Option.map_some', Option.getD_some]
    constructor
    · intro h; exact absurd h (hc pr hmem).2
    · intro h; exact absurd (hpx.trans h) (hc pr hmem).1

theorem asciiUpperChar_beq (a c : Char)
    (hc : ∀ p ∈ upperPairs, p.1 ≠ c ∧ p.2 ≠ c) :
    (asciiUpperChar a == c) = (a == c) := by
  by_cases h : a = c
  · subst h
    rw [(asciiUpperChar_eq_iff a a hc).2 rfl]
  · have h2 : ¬ asciiUpperChar a = c := fun hh => h ((asciiUpperChar_eq_iff a c hc).1 hh)
    simp [h, h2]

theorem badCharsUpperFresh : ∀ c ∈ badChars, ∀ p ∈ upperPairs, p.1 ≠ c ∧ p.2 ≠ c := by
  decide

theorem all_eq_all {α : Type} {p q : α → Bool} :
    ∀ l : List α, (∀ a ∈ l, p a = q a) → l.all p = l.all q
  | [], _ => rfl
  | a :: t, h => by
    rw [List.all_cons, List.all_cons, h a (List.mem_cons_self a t),
      all_eq_all t (fun x hx => h x (List.mem_cons_of_mem a hx))]

theorem containsChar_map_upper (l : List Char) (c : Char)
    (hc : ∀ p ∈ upperPairs, p.1 ≠ c ∧ p.2 ≠ c) :
    containsChar (l.map asciiUpperChar) c = containsChar l c := by
  induction l with
  | nil => rfl
  | cons a rest ih =>
    simp only [List.map_cons, containsChar, List.any_cons] at *
    rw [asciiUpperChar_beq a c hc, ih]

theorem containsChar_upperFirst (l : List Char) (c : Char)
    (hc : ∀ p ∈ upperPairs, p.1 ≠ c ∧ p.2 ≠ c) :
    containsChar (upperFirstChars l) c = containsChar l c := by
  cases l with
  | nil => rfl
  | cons a rest =>
    simp only [upperFirstChars, containsChar, List.any_cons]
    rw [asciiUpperChar_beq a c hc]

theorem upperFirstChars_length (l : List Char) :
    (upperFirstChars l).length = l.length := by
  cases l <;> rfl

theorem goodWordChars_map_upper (l : List Char) :
    goodWordChars (l.map asciiUpperChar) = goodWordChars l := by
  unfold goodWordChars
  rw [List.length_map]
  congr 1
  exact all_eq_all badChars (fun c hcmem => by
    rw [containsChar_map_upper l c (badCharsUpperFresh c hcmem)])

theorem goodWordChars_upperFirst (l : List Char) :
    goodWordChars (upperFirstChars l) = goodWordChars l := by
  unfold goodWordChars
  rw [upperFirstChars_length]
  congr 1
  exact all_eq_all badChars (fun c hcmem => by
    rw [containsChar_upperFirst l c (badCharsUpperFresh c hcmem)])

theorem goodWord_asciiUpper (w : String) : goodWord (asciiUpper w) = goodWord w :=
  goodWordChars_map_upper w.data

theorem goodWord_capFirst (w : String) : goodWord (capFirst w) = goodWord w :=
  goodWordChars_upperFirst w.data

theorem goodWord_resolveCasingSpec (ns : List Row) (w : String) :
    goodWord (resolveCasingSpec ns w) = goodWord w := by
  unfold resolveCasingSpec
  split
  · exact goodWord_capFirst w
  · split
    · exact goodWord_asciiUpper w
    · rfl

theorem joinMatches_ne_nil (ns : List Row) (key : String) : joinMatches ns key ≠ [] := by
  unfold joinMatches
  cases hm : (ns.filter (fun r => firstCol r == key)).map (fun r => some (firstCol r)) with
  | nil => simp
  | cons x xs => simp

theorem joinMatches_neg (ns : List Row) (key : String)
    (h : (ns.map firstCol).contains key = false) :
    joinMatches ns key = [none] := by
  have hnot : key ∉ ns.map firstCol := by simpa using h
  have hfil : ns.filter (fun r => firstCol r == key) = [] := by
    rw [List.filter_eq_nil_iff]
    intro r hr
    simp only [beq_iff_eq]
    exact fun heq => hnot (List.mem_map.2 ⟨r, hr, heq⟩)
  unfold joinMatches
  rw [hfil]
  rfl

theorem joinMatches_pos (ns : List Row) (key : String)
    (h : (ns.map firstCol).contains key = true) :
    ∀ a ∈ joinMatches ns key, a = some key := by
  intro a ha
  have hkey : key ∈ ns.map firstCol := by simpa using h
  rcases List.mem_map.1 hkey with ⟨r, hr, hrk⟩
  have hrfil : r ∈ ns.filter (fun r => firstCol r == key) :=
    List.mem_filter.2 ⟨hr, by simp [hrk]⟩
  cases hm : (ns.filter (fun r => firstCol r == key)).map (fun r => some (firstCol r)) with
  | nil =>
    have hmm : (some (firstCol r) : Option String) ∈
        (ns.filter (fun r => firstCol r == key)).map (fun r => some (firstCol r)) :=
      List.mem_map.2 ⟨r, hrfil, rfl⟩
    rw [hm] at hmm
    exact absurd hmm (List.not_mem_nil _)
  | cons x xs =>
    have hjm : joinMatches ns key = x :: xs := by
      unfold joinMatches
      rw [hm]
    rw [hjm, ← hm] at ha
    rcases List.mem_map.1 ha with ⟨r2, hr2, rfl⟩
    have hp := (List.mem_filter.1 hr2).2
    simp only [beq_iff_eq] at hp
    rw [hp]

theorem resolvedVals_ne_nil (ns : List Row) (w : String) : resolvedVals ns w ≠ [] := by
  rcases List.exists_mem_of_ne_nil _ (joinMatches_ne_nil ns (capFirst w)) with ⟨a, ha⟩
  rcases List.exists_mem_of_ne_nil _ (joinMatches_ne_nil ns (asciiUpper w)) with ⟨b, hb⟩
  exact List.ne_nil_of_mem (List.mem_flatMap.2 ⟨a, ha, List.mem_map.2 ⟨b, hb, rfl⟩⟩)

theorem resolvedVals_mem (ns : List Row) (w : String) :
    ∀ v ∈ resolvedVals ns w, v = resolveCasingSpec ns w := by
  intro v hv
  unfold resolvedVals at hv
  rcases List.mem_flatMap.1 hv with ⟨a, ha, hv2⟩
  rcases List.mem_map.1 hv2 with ⟨b, hb, rfl⟩
  by_cases hcap : (ns.map firstCol).contains (capFirst w) = true
  · have ha2 := joinMatches_pos ns (capFirst w) hcap a ha
    subst ha2
    have hres : resolveCasingSpec ns w = capFirst w := by
      unfold resolveCasingSpec
      rw [if_pos hcap]
    rw [hres]
    simp [sqlCase, optEq]
  · have hcap2 : (ns.map firstCol).contains (capFirst w) = false := by
      simpa using hcap
    have ha2 : a = none := by
      rw [joinMatches_neg ns (capFirst w) hcap2] at ha
      simpa using ha
    subst ha2
    by_cases hup : (ns.map firstCol).contains (asciiUpper w) = true
    · have hb2 := joinMatches_pos ns (asciiUpper w) hup b hb
      subst hb2
      have hres : resolveCasingSpec ns w = asciiUpper w := by
        unfold resolveCasingSpec
        rw [if_neg hcap, if_pos hup]
      rw [hres]
      simp [sqlCase, optEq]
    · have hup2 : (ns.map firstCol).contains (asciiUpper w) = false := by
        simpa using hup
      have hb2 : b = none := by
        rw [joinMatches_neg ns (asciiUpper w) hup2] at hb
        simpa using hb
      subst hb2
      have hres : resolveCasingSpec ns w = w := by
        unfold resolveCasingSpec
        rw [if_neg hcap, if_neg hup]
      rw [hres]
      simp [sqlCase, optEq]

theorem length_asciiLower (w : String) : (asciiLower w).length = w.length := by
  show (w.data.map asciiLowerChar).length = w.data.length
  exact List.length_map _ _

theorem mem_lexiconSelect (ns ps asug es : List Row) (t : String) :
    t ∈ lexiconSelect ns ps asug es ↔
      ∃ w, w ∈ fullLexicon ns ps asug es ∧ resolveCasingSpec ns w = t ∧ goodWord t = true := by
  unfold lexiconSelect
  rw [List.mem_dedup, List.mem_flatMap]
  constructor
  · rintro ⟨w, hw, hv⟩
    rw [List.mem_filter] at hw
    have ht := resolvedVals_mem ns w t hv
    refine ⟨w, hw.1, ht.symm, ?_⟩
    rw [ht, goodWord_resolveCasingSpec]
    exact hw.2
  · rintro ⟨w, hw, hres, hgood⟩
    refine ⟨w, List.mem_filter.2 ⟨hw, ?_⟩, ?_⟩
    · rw [← goodWord_resolveCasingSpec ns w, hres]
      exact hgood
    · rcases List.exists_mem_of_ne_nil _ (resolvedVals_ne_nil ns w) with ⟨v, hv⟩
      have hveq := resolvedVals_mem ns w v hv
      rw [← hres, ← hveq]
      exact hv

theorem mem_fullLexicon (ns ps asug es : List Row) (w : String) :
    w ∈ fullLexicon ns ps asug es ↔
      (w ∈ ns.map firstCol ∧ 2 < w.length) ∨
      (w ∈ ps.map firstCol ∧ 2 < w.length) ∨
      (∃ a ∈ asug.map firstCol, w = asciiLower a ∧ 2 < w.length) ∨
      w ∈ es.map firstCol := by
  unfold fullLexicon
  rw [List.mem_dedup, List.mem_append, List.mem_append, List.mem_append, List.mem_dedup]
  constructor
  · rintro (((h | h) | h) | h)
    · rcases List.mem_filter.1 h with ⟨hm, hl⟩
      exact Or.inl ⟨hm, by simpa using hl⟩
    · rcases List.mem_filter.1 h with ⟨hm, hl⟩
      exact Or.inr (Or.inl ⟨hm, by simpa using hl⟩)
    · rcases List.mem_map.1 h with ⟨a, ha, rfl⟩
      rcases List.mem_filter.1 ha with ⟨hm, hl⟩
      refine Or.inr (Or.inr (Or.inl ⟨a, hm, rfl, ?_⟩))
      rw [length_asciiLower]
      simpa using hl
    · exact Or.inr (Or.inr (Or.inr h))
  · rintro (⟨hm, hl⟩ | ⟨hm, hl⟩ | ⟨a, ha, rfl, hl⟩ | h)
    · exact Or.inl (Or.inl (Or.inl (List.mem_filter.2 ⟨hm, by simpa using hl⟩)))
    · exact Or.inl (Or.inl (Or.inr (List.mem_filter.2 ⟨hm, by simpa using hl⟩)))
    · refine Or.inl (Or.inr (List.mem_map.2 ⟨a, List.mem_filter.2 ⟨ha, ?_⟩, rfl⟩))
      rw [length_asciiLower] at hl
      simpa using hl
    · exact Or.inr h

/-- C2 counterexample: a language whose only category is nouns.  The claim
says the lexicon merge still succeeds with the missing sources contributing
empty sets; in fact the merge query references the absent `prepositions`,
`autosuggestions` and `emoji_keywords` tables, so SQLite fails to prepare
it ("no such table") and the build of that language errors out, leaving the
`autocomplete_lexicon` table empty. -/
theorem claim_C2_counterexample :
    (buildLanguageDB "French" [CatBlob.nouns [("chat", "chats", "")]]).2 =
      some "no such table" ∧
    lookupTable (buildLanguageDB "French" [CatBlob.nouns [("chat", "chats", "")]]).1
      "autocomplete_lexicon" = some [] := by
  constructor
  · decide
  · decide

/-- C2 amended: the lexicon merge requires all four source tables to exist;
if any one of them is missing the merge fails with SQLite's "no such table"
error instead of treating that source as an empty set. -/
theorem claim_C2_missing_table_errors (ns ps asug es : Option (List Row))
    (h : ns = none ∨ ps = none ∨ asug = none ∨ es = none) :
    lexiconQuery ns ps asug es = Except.error "no such table" := by
  cases ns <;> cases ps <;> cases asug <;> cases es <;> simp_all [lexiconQuery]

/-- Witness for the amended C2 at a concrete database: nouns present, the
other three sources absent. -/
theorem claim_C2_missing_table_errors_witness :
    lexiconQuery (some [["chat", "chats", ""]]) none none none =
      Except.error "no such table" :=
  claim_C2_missing_table_errors (some [["chat", "chats", ""]]) none none none
    (Or.inr (Or.inl rfl))

/-- C3: casing resolution priority.  Every value the CASE expression
produces for a candidate (across the cross product of both LEFT JOINs)
equals the specified priority resolution — capitalize-first noun match,
else whole-word upper-case noun match, else the candidate itself — and at
least one value is produced.  Concretely, a noun table holding "Scribe"
and an autosuggestion source holding "scribe" merge to exactly ["Scribe"],
not "scribe". -/
theorem claim_C3_casing_priority :
    (∀ (ns : List Row) (w : String), ∀ v ∈ resolvedVals ns w,
      v = resolveCasingSpec ns w) ∧
    (∀ (ns : List Row) (w : String), resolvedVals ns w ≠ []) ∧
    lexiconSelect [["Scribe", "Scribes", ""]] [] [["scribe", "", "", ""]] [] =
      ["Scribe"] := by
  refine ⟨resolvedVals_mem, resolvedVals_ne_nil, by decide⟩

/-- Witness for C3 at a concrete input: the candidate "scribe" resolves to
"Scribe" when the noun table holds "Scribe". -/
theorem claim_C3_casing_priority_witness :
    ("Scribe" : String) = resolveCasingSpec [["Scribe", "Scribes", ""]] "scribe" :=
  claim_C3_casing_priority.1 [["Scribe", "Scribes", ""]] "scribe" "Scribe" (by decide)

/-- C4: the candidate set and the token filter.  A token is stored in the
lexicon iff it is the resolution of some candidate of the full lexicon and
passes the filter (length above 1, no hyphen, slash, parenthesis, straight
or curly double quote, or straight single quote — `goodWord`); the full
lexicon is exactly the union of noun tokens of length > 2, preposition
tokens of length > 2, lower-cased autosuggestion tokens of length > 2, and
all emoji-keyword tokens.  Concretely, a two-character preposition is
excluded and a three-character one included. -/
theorem claim_C4_full_lexicon_filter :
    (∀ (ns ps asug es : List Row) (t : String),
      t ∈ lexiconSelect ns ps asug es ↔
        ∃ w, w ∈ fullLexicon ns ps asug es ∧ resolveCasingSpec ns w = t ∧
          goodWord t = true) ∧
    (∀ (ns ps asug es : List Row) (w : String),
      w ∈ fullLexicon ns ps asug es ↔
        (w ∈ ns.map firstCol ∧ 2 < w.length) ∨
        (w ∈ ps.map firstCol ∧ 2 < w.length) ∨
        (∃ a ∈ asug.map firstCol, w = asciiLower a ∧ 2 < w.length) ∨
        w ∈ es.map firstCol) ∧
    lexiconSelect [] [["of", ""]] [] [] = [] ∧
    lexiconSelect [] [["out", ""]] [] [] = ["out"] := by
  refine ⟨mem_lexiconSelect, mem_fullLexicon, by decide, by decide⟩

/-- C5: the claim says every mapped row satisfies `len(row) == len(cols)`
and starts with its headword, with autosuggestion and emoji rows padded to
four values.  Rows do start with the headword and the two padded
categories do produce four-value rows matching their four-element `cols`;
but for nouns (and likewise prepositions and translations) the code's
`cols` is a single comma-joined string, so the rows have three (or two)
values against a `cols` list of length one. -/
theorem claim_C5_row_shapes :
    nounsCols.length = 1 ∧
    (nounsRowsStream "French" [("chat", "chats", "")]).map List.length = [3, 3] ∧
    (nounsRowsStream "French" [("chat", "chats", "")]).map firstCol =
      ["chat", "Scribe"] ∧
    prepositionsCols.length = 1 ∧
    (prepositionsRows [("aus", "dative")]).map List.length = [2] ∧
    (prepositionsRows [("aus", "dative")]).map firstCol = ["aus"] ∧
    autosuggestionsCols.length = 4 ∧
    (autosuggestionsRows
        [("a", []), ("b", ["x"]), ("c", ["x", "y"]), ("d", ["x", "y", "z"])]).map
      List.length = [4, 4, 4, 4] ∧
    (autosuggestionsRows
        [("a", []), ("b", ["x"]), ("c", ["x", "y"]), ("d", ["x", "y", "z"])]).map
      firstCol = ["a", "b", "c", "d"] ∧
    emojiKeywordsCols.length = 4 ∧
    (emojiKeywordsRows [("fire", [EmojiEntry.mk "flame"])]).map List.length = [4] := by
  decide

theorem optMap_eq_none {α β : Type} (f : α → Option β) (l : List α)
    (h : ∃ a ∈ l, f a = none) : optMap f l = none := by
  induction l with
  | nil => simp at h
  | cons a rest ih =>
    rcases h with ⟨a0, ha0, hfa⟩
    rcases List.mem_cons.1 ha0 with rfl | hmem
    · unfold optMap
      rw [hfa]
    · unfold optMap
      rw [ih ⟨a0, hmem, hfa⟩]
      cases f a <;> rfl

theorem verbRowOf_none (cols : List String) (e : String × List (String × String))
    (h : ∃ c ∈ cols.drop 1, lookupKey e.2 c = none) :
    verbRowOf cols e = none := by
  unfold verbRowOf
  rw [optMap_eq_none _ _ h]
  rfl

/-- C7: the verbs contract.  The conjugation-slot columns are the keys of
the blob's first entry; an entry missing one of those keys makes the row
mapping raise `KeyError` (no silent default), and in a build where nouns
preceded verbs the committed nouns table survives while the verbs table is
left empty and the language build errors out. -/
theorem claim_C7_verbs_contract (lang : String) (nb : List (String × String × String))
    (vb : List (String × List (String × String))) (cols : List String)
    (h1 : verbsColsOf vb = Except.ok cols)
    (h2 : ∃ e ∈ vb, ∃ c ∈ cols.drop 1, lookupKey e.2 c = none) :
    (∀ e rest, vb = e :: rest → cols = "verb" :: e.2.map (fun p => p.1)) ∧
    processCat lang (CatBlob.verbs vb) =
      CatOutcome.failAfterCreate "verbs" cols "KeyError" ∧
    buildLanguageDB lang [CatBlob.nouns nb, CatBlob.verbs vb] =
      ([("nouns", loadTable (uniqIdx nounsCols) (nounsRowsStream lang nb)),
        ("verbs", [])], some "KeyError") := by
  have hnone : optMap (verbRowOf cols) vb = none := by
    rcases h2 with ⟨e, he, hc⟩
    exact optMap_eq_none _ _ ⟨e, he, verbRowOf_none cols e hc⟩
  refine ⟨?_, ?_, ?_⟩
  · intro e rest hvb
    subst hvb
    simp only [verbsColsOf] at h1
    exact (Except.ok.inj h1).symm
  · simp [processCat, h1, hnone]
  · simp [buildLanguageDB, buildTablesAux, processCat, h1, hnone]

/-- Witness for C7: inferred columns ["verb", "present"], second entry
lacks the "present" key, the mapping fails and the nouns table survives. -/
theorem claim_C7_verbs_contract_witness :
    processCat "German" (CatBlob.verbs [("go", [("present", "goes")]), ("be", [])]) =
      CatOutcome.failAfterCreate "verbs" ["verb", "present"] "KeyError" :=
  (claim_C7_verbs_contract "German" [("Haus", "Hauser", "")]
    [("go", [("present", "goes")]), ("be", [])] ["verb", "present"]
    rfl (by decide)).2.1

/-- C8: an invalid language-subset argument (unparseable, not a list, or
containing an unknown language) fails the run during validation, before
any database file is removed or created: the effect trace is empty. -/
theorem claim_C8_invalid_argument (cfg : Config) (arg : Option LiteralParse) (m : String)
    (h : validateArg cfg.current_languages arg = Except.error m) :
    runAll cfg arg = ([], some m) := by
  unfold runAll
  rw [h]

/-- Witness for C8: the subset ["Klingon"] against known languages
["French"] fails with no effects. -/
theorem claim_C8_invalid_argument_witness :
    runAll (Config.mk ["French"] (fun _ => "fr") (fun _ => false) (fun _ => []))
      (some (LiteralParse.ok (PyValue.strList ["Klingon"]))) =
      ([], some "ValueError: invalid language argument") :=
  claim_C8_invalid_argument _ _ _ rfl

theorem mem_langEffects (cfg : Config) (l : String) (e : Effect)
    (h : e ∈ langEffects cfg l) :
    e = Effect.removeFile (dbPath cfg l) ∨ e = Effect.createFile (dbPath cfg l) := by
  unfold langEffects at h
  rcases List.mem_append.1 h with h1 | h1
  · left
    by_cases hd : cfg.dbExists (dbPath cfg l) = true
    · rw [if_pos hd] at h1
      exact List.mem_singleton.1 h1
    · rw [if_neg hd] at h1
      exact absurd h1 (List.not_mem_nil e)
  · right
    exact List.mem_singleton.1 h1

/-- C9: a language with zero discovered category files is skipped: its loop
iteration only emits the skip notice (no error), and no run over any
language list whose languages sharing that database path are all empty
ever removes or creates that language's database file. -/
theorem claim_C9_skip_empty_language (cfg : Config) (lang : String)
    (h : (cfg.langData lang).isEmpty = true) :
    processLang cfg lang = ([Effect.skipNotice lang], none) ∧
    ∀ ls : List String,
      (∀ l ∈ ls, dbPath cfg l = dbPath cfg lang → (cfg.langData l).isEmpty = true) →
      Effect.removeFile (dbPath cfg lang) ∉ (runLangs cfg ls).1 ∧
      Effect.createFile (dbPath cfg lang) ∉ (runLangs cfg ls).1 := by
  have hskip : processLang cfg lang = ([Effect.skipNotice lang], none) := by
    unfold processLang
    rw [if_pos h]
  refine ⟨hskip, ?_⟩
  intro ls
  induction ls with
  | nil => intro _; simp [runLangs]
  | cons l rest ih =>
    intro hside
    have hl := hside l (List.mem_cons_self l rest)
    have ihr := ih (fun l2 hl2 => hside l2 (List.mem_cons_of_mem l hl2))
    have hstep : Effect.removeFile (dbPath cfg lang) ∉ (processLang cfg l).1 ∧
        Effect.createFile (dbPath cfg lang) ∉ (processLang cfg l).1 := by
      by_cases he : (cfg.langData l).isEmpty = true
      · have hp1 : (processLang cfg l).1 = [Effect.skipNotice l] := by
          simp [processLang, he]
        rw [hp1]
        constructor <;> simp
      · have hne : dbPath cfg l ≠ dbPath cfg lang := fun hp => he (hl hp)
        have hp1 : (processLang cfg l).1 = langEffects cfg l := by
          simp [processLang, he]
        rw [hp1]
        constructor
        · intro hc
          rcases mem_langEffects cfg l _ hc with h1 | h1
          · exact hne (Effect.removeFile.inj h1).symm
          · exact Effect.noConfusion h1
        · intro hc
          rcases mem_langEffects cfg l _ hc with h1 | h1
          · exact Effect.noConfusion h1
          · exact hne (Effect.createFile.inj h1).symm
    rcases hpl : processLang cfg l with ⟨effs, err⟩
    rw [hpl] at hstep
    cases err with
    | some m =>
      have hr : runLangs cfg (l :: rest) = (effs, some m) := by
        unfold runLangs
        rw [hpl]
      rw [hr]
      exact hstep
    | none =>
      rcases hrr : runLangs cfg rest with ⟨e2, r2⟩
      have hr : runLangs cfg (l :: rest) = (effs ++ e2, r2) := by
        unfold runLangs
        rw [hpl, hrr]
      rw [hr] at *
      rw [hrr] at ihr
      constructor <;> intro hc <;> rcases List.mem_append.1 hc with hcc | hcc
      · exact hstep.1 hcc
      · exact ihr.1 hcc
      · exact hstep.2 hcc
      · exact ihr.2 hcc

/-- Witness for C9: a known language with no category files is skipped and
its database path sees no file operation. -/
theorem claim_C9_skip_empty_language_witness :
    processLang (Config.mk ["French"] (fun _ => "fr") (fun _ => false) (fun _ => []))
        "French" = ([Effect.skipNotice "French"], none) ∧
    Effect.removeFile (dbPath
        (Config.mk ["French"] (fun _ => "fr") (fun _ => false) (fun _ => [])) "French") ∉
      (runLangs (Config.mk ["French"] (fun _ => "fr") (fun _ => false) (fun _ => []))
        ["French"]).1 :=
  ⟨(claim_C9_skip_empty_language
      (Config.mk ["French"] (fun _ => "fr") (fun _ => false) (fun _ => [])) "French" rfl).1,
    ((claim_C9_skip_empty_language
      (Config.mk ["French"] (fun _ => "fr") (fun _ => false) (fun _ => [])) "French" rfl).2
      ["French"] (fun _ _ _ => rfl)).1⟩

/-- C10: an empty verbs blob fails at column inference (`IndexError` on the
first key of an empty mapping) before `CREATE TABLE`, so the build errors
out with no verbs table — not an empty verbs table. -/
theorem claim_C10_empty_verbs_blob (lang : String) :
    processCat lang (CatBlob.verbs []) =
      CatOutcome.failBeforeCreate "IndexError: list index out of range" ∧
    buildLanguageDB lang [CatBlob.verbs []] =
      ([], some "IndexError: list index out of range") ∧
    lookupTable (buildLanguageDB lang [CatBlob.verbs []]).1 "verbs" = none := by
  refine ⟨rfl, rfl, rfl⟩
